import Mathlib

set_option maxRecDepth 100000

/-!
Verification of the `vtagent` tooling scripts: the console-style rewriter
`src/tools/migrate_styles.py` and the theme registry `src/tools/themes.py`.

The rewriter is a sequence of `re.sub` passes.  Each entry of the Python
dictionary `style_mappings` pairs a pattern of one of the two shapes

  `style\("([^"]*)"\)TAIL`      (literal-argument entry)
  `style\(([^"]*?)\)TAIL`       (variable-argument entry)

with a replacement `Styles::NAME().render(), ARG, Styles::NAME().render_reset()`
where `ARG` is `"\1"` for the literal entries and `\1` for the variable
entries.  We encode an entry as a `Rule` record holding the shape flag, the
method-chain `TAIL` (for example `.red().bold()`) and the destination style
`NAME`.  The four wrapping contexts built in `convert_style_calls` around each
entry are embedded by `matchWrapped` (the `println!`/`eprintln!`/`print!`
forms, whose pattern is  `W!\("([^"]]*)", PATTERN\)`) and `matchStandalone`
(the form `println!\(PATTERN\)`), and `re.sub` by the scanner `subScan`.

Note two facts about the Python regexes that the embedding reproduces
faithfully:
* in the wrapped patterns the character class of the format literal is
  `[^"]]*`, which is the class `[^"]` (one single character) followed by
  `]*` (a run of right brackets) - not `[^"]*`;
* in the wrapped patterns the rule's pattern contributes group 2, so the
  `\1` references inside the combined replacement (both the one in
  `"\1{}"` and the one standing in the argument position of the rule's
  replacement) produce the format group, not the style argument.
-/

namespace MigrateStyles

/-- Characters of a source text; the rewriter operates on plain text. -/
abbrev Text := List Char

/-- Match the literal character sequence `l` at the front of `s`, returning
the remainder on success (the regex semantics of a literal). -/
def dropLit : List Char → Text → Option Text
  | [], s => some s
  | _ :: _, [] => none
  | c :: l, d :: s => if c = d then dropLit l s else none

/-- Match the format-literal group `([^"]]*)` of the wrapped patterns: the
character class `[^"]` (exactly one character that is not a quote) followed
by `]*` (a greedy run of right brackets).  Greediness of `]*` is forced:
the pattern continues with `"`, which is not `]`. -/
def matchFmt : Text → Option (Text × Text)
  | [] => none
  | c :: s =>
    if c = '"' then none
    else some (c :: s.takeWhile (fun d => d = ']'), s.dropWhile (fun d => d = ']'))

/-- One entry of the Python dictionary `style_mappings`: `isLit` tells the
shape of the pattern (literal-argument `style\("([^"]*)"\)TAIL` versus
variable-argument `style\(([^"]*?)\)TAIL`), `tail` is the method chain
`TAIL`, and `name` the destination style used in the replacement. -/
structure Rule where
  isLit : Bool
  tail : String
  name : String
  deriving DecidableEq, Repr

/-- Literal regex text following the argument group of a rule inside any of
the four wrapping contexts: `\)TAIL\)` (the `\)` closing `style(`, the
method chain, and the wrapper's own closing `\)`). -/
def styleCont (r : Rule) : Text :=
  ')' :: (r.tail.toList ++ [')'])

/-- Match the greedy group `([^"]*)` followed by `"` and then the literal
`cont`: the group stops at the first quote (a shorter extent would put a
non-quote where the regex requires `"`, so the first-quote extent is the
only viable one). -/
def matchLitArg (cont : Text) : Text → Option (Text × Text)
  | [] => none
  | c :: s =>
    if c = '"' then
      match dropLit cont s with
      | some r => some ([], r)
      | none => none
    else
      match matchLitArg cont s with
      | some (cap, r) => some (c :: cap, r)
      | none => none

/-- Match the lazy group `([^"]*?)` followed by the literal `cont`: the
shortest extent of non-quote characters after which `cont` matches, as a
lazy quantifier backtracks outward. -/
def matchLazyArg (cont : Text) : Text → Option (Text × Text)
  | [] =>
    match dropLit cont [] with
    | some r => some ([], r)
    | none => none
  | c :: s =>
    match dropLit cont (c :: s) with
    | some r => some ([], r)
    | none =>
      if c = '"' then none
      else
        match matchLazyArg cont s with
        | some (cap, r) => some (c :: cap, r)
        | none => none

/-- Match a rule's pattern `style\(ARG\)TAIL` together with the wrapper's
closing `\)`, returning the captured argument group and the remainder. -/
def matchStyleArg (r : Rule) (s : Text) : Option (Text × Text) :=
  match dropLit "style(".toList s with
  | none => none
  | some s1 =>
    if r.isLit then
      match s1 with
      | '"' :: s2 => matchLitArg (styleCont r) s2
      | _ => none
    else
      matchLazyArg (styleCont r) s1

/-- Match the wrapped pattern `W!\("([^"]]*)", PATTERN\)` (the shape of
`println_pattern`, `eprintln_pattern` and `print_pattern`), returning
the format group, the argument group and the remainder. -/
def matchWrapped (w : String) (r : Rule) (s : Text) : Option (Text × Text × Text) :=
  match dropLit (w ++ "!(\"").toList s with
  | none => none
  | some s1 =>
    match matchFmt s1 with
    | none => none
    | some (fmt, s2) =>
      match dropLit "\", ".toList s2 with
      | none => none
      | some s3 =>
        match matchStyleArg r s3 with
        | none => none
        | some (arg, s4) => some (fmt, arg, s4)

/-- Match the standalone pattern `println!\(PATTERN\)` (the shape of
`standalone_pattern`), returning the argument group and the remainder. -/
def matchStandalone (r : Rule) (s : Text) : Option (Text × Text) :=
  match dropLit "println!(".toList s with
  | none => none
  | some s1 => matchStyleArg r s1

/-- The rule's replacement text `Styles::NAME().render(), ARG,
Styles::NAME().render_reset()` with the group reference substituted by `a`
(quoted again for literal entries, bare for variable entries). -/
def ruleRepl (r : Rule) (a : Text) : Text :=
  ("Styles::" ++ r.name ++ "().render(), ").toList
    ++ (if r.isLit then '"' :: (a ++ ['"']) else a)
    ++ (", Styles::" ++ r.name ++ "().render_reset()").toList

/-- Replacement of a wrapped match, `W!("\1{}", REPL)`.  Group 1 of the
combined pattern is the format literal, so the `\1` inside `REPL` also
produces the format text: the captured style argument is dropped. -/
def wrappedRepl (w : String) (r : Rule) (fmt : Text) : Text :=
  (w ++ "!(\"").toList ++ fmt ++ "{}\", ".toList ++ ruleRepl r fmt ++ [')']

/-- Replacement of a standalone match, `println!("{}{}{}", REPL)`.  Here
group 1 is the rule's argument group. -/
def standaloneRepl (r : Rule) (a : Text) : Text :=
  "println!(\"{}{}{}\", ".toList ++ ruleRepl r a ++ [')']

/-- The scanning loop of `re.sub`: try the matcher at each position from the
left; on a match emit the replacement and resume after the matched text,
otherwise copy one character.  The fuel is initialised with the text length,
which suffices because every match consumes at least one character. -/
def subScan (m : Text → Option (Text × Text)) : Nat → Text → Text
  | 0, s => s
  | _ + 1, [] => []
  | fuel + 1, c :: s =>
    match m (c :: s) with
    | some (repl, rest) => repl ++ subScan m fuel rest
    | none => c :: subScan m fuel s

/-- Matcher used by the wrapped-context substitutions: a successful match is
replaced by `wrappedRepl`. -/
def wrappedMatcher (w : String) (r : Rule) (t : Text) : Option (Text × Text) :=
  match matchWrapped w r t with
  | some (fmt, _, rest) => some (wrappedRepl w r fmt, rest)
  | none => none

/-- Matcher used by the standalone substitution: a successful match is
replaced by `standaloneRepl`. -/
def standaloneMatcher (r : Rule) (t : Text) : Option (Text × Text) :=
  match matchStandalone r t with
  | some (arg, rest) => some (standaloneRepl r arg, rest)
  | none => none

/-- One `re.sub` pass for a rule in the wrapped context named `w`. -/
def subWrapped (w : String) (r : Rule) (s : Text) : Text :=
  subScan (wrappedMatcher w r) s.length s

/-- One `re.sub` pass for a rule in the standalone context. -/
def subStandalone (r : Rule) (s : Text) : Text :=
  subScan (standaloneMatcher r) s.length s

/-- Body of the `for pattern, replacement in style_mappings.items()` loop:
the `println!`, `eprintln!`, `print!` and standalone substitutions of one
rule, in the order of the source. -/
def applyRule (s : Text) (r : Rule) : Text :=
  let s1 := subWrapped "println" r s
  let s2 := subWrapped "eprintln" r s1
  let s3 := subWrapped "print" r s2
  subStandalone r s3

/-- The dictionary `style_mappings` of `convert_style_calls`, in insertion
order (Python dictionaries iterate in insertion order). -/
def style_mappings : List Rule :=
  [⟨true, ".red().bold()", "bold_error"⟩,
   ⟨true, ".green().bold()", "bold_success"⟩,
   ⟨true, ".blue().bold()", "header"⟩,
   ⟨true, ".yellow().bold()", "bold_warning"⟩,
   ⟨true, ".cyan().bold()", "bold"⟩,
   ⟨true, ".magenta().bold()", "code"⟩,
   ⟨true, ".white().bold()", "bold"⟩,
   ⟨true, ".red()", "error"⟩,
   ⟨true, ".green()", "success"⟩,
   ⟨true, ".blue()", "info"⟩,
   ⟨true, ".yellow()", "warning"⟩,
   ⟨true, ".cyan()", "debug"⟩,
   ⟨true, ".magenta()", "code"⟩,
   ⟨true, ".white()", "bold"⟩,
   ⟨true, ".dim()", "debug"⟩,
   ⟨true, ".dim().on_black()", "debug"⟩,
   ⟨false, ".red().bold()", "bold_error"⟩,
   ⟨false, ".green().bold()", "bold_success"⟩,
   ⟨false, ".blue().bold()", "header"⟩,
   ⟨false, ".yellow().bold()", "bold_warning"⟩,
   ⟨false, ".cyan().bold()", "bold"⟩,
   ⟨false, ".magenta().bold()", "code"⟩,
   ⟨false, ".white().bold()", "bold"⟩,
   ⟨false, ".red()", "error"⟩,
   ⟨false, ".green()", "success"⟩,
   ⟨false, ".blue()", "info"⟩,
   ⟨false, ".yellow()", "warning"⟩,
   ⟨false, ".cyan()", "debug"⟩,
   ⟨false, ".magenta()", "code"⟩,
   ⟨false, ".white()", "bold"⟩]

/-- The loop of `convert_style_calls` over the rule list. -/
def convertList (s : Text) : Text :=
  style_mappings.foldl applyRule s

/-- The function `convert_style_calls` of `src/tools/migrate_styles.py`. -/
def convert_style_calls (content : String) : String :=
  (convertList content.toList).asString

/-- Absence of compound patterns in a text: no entry of `style_mappings`,
in any of the four wrapping contexts, matches at any position (that is, at
the head of any suffix). -/
def NoCompoundMatch (s : Text) : Prop :=
  ∀ r ∈ style_mappings, ∀ t ∈ s.tails,
    matchWrapped "println" r t = none ∧ matchWrapped "eprintln" r t = none ∧
    matchWrapped "print" r t = none ∧ matchStandalone r t = none

instance (s : Text) : Decidable (NoCompoundMatch s) := by
  unfold NoCompoundMatch
  infer_instance

/-- Characters that may appear in an identifier-like variable argument. -/
def identChar (c : Char) : Bool :=
  c.isAlphanum || c == '_'

/-- Two character sequences disagree at some position inside their common
length (so the first can never match as a literal where the second is the
next text). -/
def litClash : List Char → List Char → Bool
  | [], _ => false
  | _, [] => false
  | c :: l, d :: p => if c = d then litClash l p else true

/-- The literal `L` can match at the head of no text of the form
`arg ++ t2` with `arg` made of identifier characters: `L` fails on `t2`
itself, and keeps failing after consuming any run of its own leading
identifier characters. -/
def identBlock : List Char → List Char → Bool
  | [], _ => false
  | a :: L, t2 =>
    (dropLit (a :: L) t2).isNone && (if identChar a then identBlock L t2 else true)

/-- Concrete text surrounding a variable-argument call site: the wrapped
prefix up to the argument of `style(`. -/
def varFront : Text := "println!(\"E\", style(".toList

/-- Concrete text surrounding a variable-argument call site: the text
after the argument, closing the call, the chain `.red()` and the wrapper. -/
def varBack : Text := ").red())".toList

/-- A `println!`-wrapped call site of the variable-argument red rule with
format literal `"E"` and the given argument text. -/
def varSite (arg : Text) : Text := varFront ++ (arg ++ varBack)

end MigrateStyles

/-!
The theme registry of `src/tools/themes.py`.  The module defines a frozen
dataclass of five colour fields, a two-entry registry dictionary `THEMES`,
the constant `DEFAULT_THEME`, and `available()`, which returns the fresh
copy `dict(THEMES)`.  A dictionary with string keys is embedded as an
association list in insertion order.  Aliasing of Python dictionaries is
modelled by a small store of cells (`Store`), where the module-level
`THEMES` object lives in cell `0` and `dict(THEMES)` allocates a new cell
holding a copy of the entries.
-/

namespace Themes

/-- The frozen dataclass `ThemePalette` of `src/tools/themes.py`. -/
structure ThemePalette where
  primary_accent : String
  background : String
  foreground : String
  secondary_accent : String
  alert : String
  deriving DecidableEq, Repr

/-- The registry dictionary `THEMES`, in insertion order. -/
def THEMES : List (String × ThemePalette) :=
  [("ciapre-dark", ⟨"#BFB38F", "#262626", "#BFB38F", "#D99A4E", "#FF8A8A"⟩),
   ("ciapre-blue", ⟨"#BFB38F", "#383B73", "#BFB38F", "#BFB38F", "#FF8A8A"⟩)]

/-- The constant `DEFAULT_THEME`. -/
def DEFAULT_THEME : String := "ciapre-dark"

/-- The value returned by `available()`: the entries of `dict(THEMES)`,
which are exactly the entries of `THEMES` (the copy aspect is modelled by
`available_alloc` below). -/
def available : List (String × ThemePalette) := THEMES

/-- Modelled from the spec: `lookup(name)` is not defined in
`src/tools/themes.py`; per the spec it "returns the palette for an exact,
case-sensitive key match" in the registry and an absent result for an
absent key, with no exception.  It is embedded as the exact string-key
lookup in the `THEMES` association list. -/
def lookup (name : String) : Option ThemePalette :=
  (THEMES.find? (fun p => p.1 == name)).map (fun p => p.2)

/-- A store of dictionary objects: cell `i` holds the entries of the
dictionary object with identity `i`. -/
structure Store where
  cells : List (List (String × ThemePalette))
  deriving DecidableEq

/-- Entries of the dictionary object `i` (empty for a dangling identity). -/
def readCell (σ : Store) (i : Nat) : List (String × ThemePalette) :=
  σ.cells.getD i []

/-- Mutate the dictionary object `i` in place (the model of adding,
removing or rebinding entries through a reference to it). -/
def writeCell (σ : Store) (i : Nat) (v : List (String × ThemePalette)) : Store :=
  ⟨σ.cells.set i v⟩

/-- Identity of the module-level `THEMES` dictionary. -/
def THEMES_ref : Nat := 0

/-- The initial store: only the module-level `THEMES` object exists. -/
def initStore : Store := ⟨[THEMES]⟩

/-- The call `available()`: `dict(THEMES)` allocates a fresh dictionary
object holding a copy of the registry's entries and returns its identity. -/
def available_alloc (σ : Store) : Store × Nat :=
  (⟨σ.cells ++ [readCell σ THEMES_ref]⟩, σ.cells.length)

/-- Lookup against the registry object of a store (the dictionary access
underlying `lookup` when the program state is modelled explicitly). -/
def lookup_at (σ : Store) (name : String) : Option ThemePalette :=
  ((readCell σ THEMES_ref).find? (fun p => p.1 == name)).map (fun p => p.2)

end Themes

namespace MigrateStyles

/-- Helper: converting a string to its character list and back is the
identity. -/
theorem asString_toList (s : String) : s.toList.asString = s := rfl

/-- Helper: a successful literal match decomposes the text as literal
followed by remainder. -/
theorem dropLit_some : ∀ (l s r : Text), dropLit l s = some r → s = l ++ r
  | [], s, r, h => by
    simp only [dropLit, Option.some.injEq] at h
    simp [h]
  | _ :: _, [], _, h => by simp [dropLit] at h
  | c :: l, d :: s, r, h => by
    simp only [dropLit] at h
    by_cases hc : c = d
    · rw [if_pos hc] at h
      subst hc
      have := dropLit_some l s r h
      simp [this]
    · rw [if_neg hc] at h
      exact absurd h (by simp)

/-- Helper: a literal always matches at the head of itself followed by
anything. -/
theorem dropLit_append : ∀ (l s : Text), dropLit l (l ++ s) = some s
  | [], _ => rfl
  | c :: l, s => by simp [dropLit, dropLit_append l s]

/-- Helper: if the literal is not a prefix of the text, the literal match
fails. -/
theorem dropLit_none_of_no_lead {l s : Text} (h : ¬ l <+: s) : dropLit l s = none := by
  cases hd : dropLit l s with
  | none => rfl
  | some r => exact absurd ⟨r, (dropLit_some l s r hd).symm⟩ h

/-- Helper: the scanner leaves the empty text unchanged for any fuel. -/
theorem subScan_nil (m : Text → Option (Text × Text)) :
    ∀ fuel, subScan m fuel [] = [] := by
  intro fuel
  cases fuel <;> rfl

/-- Helper: if the matcher fails at every position of a text, the scanner
returns the text unchanged, whatever the fuel. -/
theorem subScan_id {m : Text → Option (Text × Text)} :
    ∀ (s : Text), (∀ t, t <:+ s → m t = none) → ∀ (fuel : Nat), subScan m fuel s = s
  | _, _, 0 => rfl
  | [], _, _ + 1 => rfl
  | c :: s, h, fuel + 1 => by
    have h0 : m (c :: s) = none := h _ List.suffix_rfl
    have ih := subScan_id s (fun t ht => h t (ht.trans ⟨[c], rfl⟩)) fuel
    simp [subScan, h0, ih]

/-- Helper: a fold over rules that all leave the text unchanged leaves the
text unchanged. -/
theorem foldl_fixed : ∀ (l : List Rule) (s : Text),
    (∀ r ∈ l, applyRule s r = s) → List.foldl applyRule s l = s
  | [], _, _ => rfl
  | r :: l, s, h => by
    rw [List.foldl_cons, h r (List.mem_cons_self r l)]
    exact foldl_fixed l s (fun r' hr' => h r' (List.mem_cons_of_mem r hr'))

/-- Helper: a wrapped-context match fails when its leading literal fails. -/
theorem matchWrapped_none_of {w : String} {r : Rule} {s : Text}
    (h : dropLit (w ++ "!(\"").toList s = none) : matchWrapped w r s = none := by
  unfold matchWrapped
  rw [h]

/-- Helper: a standalone match fails when its leading literal fails. -/
theorem matchStandalone_none_of {r : Rule} {s : Text}
    (h : dropLit "println!(".toList s = none) : matchStandalone r s = none := by
  unfold matchStandalone
  rw [h]

/-- Helper: the wrapped matcher fails when the wrapped match fails. -/
theorem wrappedMatcher_none_of {w : String} {r : Rule} {s : Text}
    (h : matchWrapped w r s = none) : wrappedMatcher w r s = none := by
  simp [wrappedMatcher, h]

/-- Helper: the standalone matcher fails when the standalone match fails. -/
theorem standaloneMatcher_none_of {r : Rule} {s : Text}
    (h : matchStandalone r s = none) : standaloneMatcher r s = none := by
  simp [standaloneMatcher, h]

/-- Helper: a rule pass leaves a text unchanged when all four matchers fail
at every position. -/
theorem applyRule_id_of_matchers_none {s : Text} {r : Rule}
    (h : ∀ t, t <:+ s →
      matchWrapped "println" r t = none ∧ matchWrapped "eprintln" r t = none ∧
      matchWrapped "print" r t = none ∧ matchStandalone r t = none) :
    applyRule s r = s := by
  have w1 : ∀ t, t <:+ s → wrappedMatcher "println" r t = none :=
    fun t ht => wrappedMatcher_none_of (h t ht).1
  have w2 : ∀ t, t <:+ s → wrappedMatcher "eprintln" r t = none :=
    fun t ht => wrappedMatcher_none_of (h t ht).2.1
  have w3 : ∀ t, t <:+ s → wrappedMatcher "print" r t = none :=
    fun t ht => wrappedMatcher_none_of (h t ht).2.2.1
  have w4 : ∀ t, t <:+ s → standaloneMatcher r t = none :=
    fun t ht => standaloneMatcher_none_of (h t ht).2.2.2
  simp only [applyRule, subWrapped, subStandalone]
  rw [subScan_id s w1, subScan_id s w2, subScan_id s w3, subScan_id s w4]

/-- Helper: if a text contains neither `println!(` nor `print!(`, no rule
pass changes it (every wrapping context requires one of those literals). -/
theorem applyRule_id_of_no_wrapper {s : Text}
    (h1 : ¬ ("println!(".toList <:+: s)) (h2 : ¬ ("print!(".toList <:+: s))
    (r : Rule) : applyRule s r = s := by
  have key : ∀ (lead : Text),
      ("println!(".toList <:+: lead ∨ "print!(".toList <:+: lead) →
      ∀ t, t <:+ s → dropLit lead t = none := by
    intro lead hlead t ht
    apply dropLit_none_of_no_lead
    intro hp
    have hinf : lead <:+: s := List.infix_iff_prefix_suffix.mpr ⟨t, hp, ht⟩
    rcases hlead with h | h
    · exact h1 (h.trans hinf)
    · exact h2 (h.trans hinf)
  apply applyRule_id_of_matchers_none
  intro t ht
  refine ⟨matchWrapped_none_of (key _ (Or.inl (by decide)) t ht),
          matchWrapped_none_of (key _ (Or.inl (by decide)) t ht),
          matchWrapped_none_of (key _ (Or.inr (by decide)) t ht),
          matchStandalone_none_of (key _ (Or.inl (by decide)) t ht)⟩

/-- Helper: the whole rewriter is the identity on texts containing neither
`println!(` nor `print!(`. -/
theorem convertList_id_of_no_wrapper {s : Text}
    (h1 : ¬ ("println!(".toList <:+: s)) (h2 : ¬ ("print!(".toList <:+: s)) :
    convertList s = s :=
  foldl_fixed _ s (fun r _ => applyRule_id_of_no_wrapper h1 h2 r)

/-- C1: the spec's worked example is wrong about the code: on the exact
input `println!("Error: {}", style("bad").red().bold())` the rewriter
returns the input unchanged (the format-literal class `[^"]]*` cannot
match `Error: {}`), and in particular the output claimed by the spec is
not produced. -/
theorem C1_example_unchanged :
    convert_style_calls "println!(\"Error: {}\", style(\"bad\").red().bold())"
      = "println!(\"Error: {}\", style(\"bad\").red().bold())" ∧
    convert_style_calls "println!(\"Error: {}\", style(\"bad\").red().bold())"
      ≠ "println!(\"Error: {}{}{}\", Styles::bold_error().render(), \"bad\", Styles::bold_error().render_reset())" := by
  constructor
  · decide
  · decide

/-- C2 counterexample: the rewriter is not idempotent.  On the input
`println!(style(println!(style(v).red()).red())` the first pass rewrites
the outer standalone wrapper with the lazily captured argument
`println!(style(v`, and the second pass finds and rewrites a standalone
pattern again inside the result. -/
theorem C2_not_idempotent :
    convert_style_calls (convert_style_calls "println!(style(println!(style(v).red()).red())")
      ≠ convert_style_calls "println!(style(println!(style(v).red()).red())" := by
  decide

/-- C2 amended: idempotence does not hold for every text; it holds on every
text containing no occurrence of `println!(` or `print!(` (where the
rewriter is the identity), and re-running the rewriter on the spec's worked
example is a no-op. -/
theorem C2_idempotent_amended :
    (∀ s : String, ¬ ("println!(".toList <:+: s.toList) →
      ¬ ("print!(".toList <:+: s.toList) →
      convert_style_calls (convert_style_calls s) = convert_style_calls s) ∧
    convert_style_calls (convert_style_calls "println!(\"Error: {}\", style(\"bad\").red().bold())")
      = convert_style_calls "println!(\"Error: {}\", style(\"bad\").red().bold())" := by
  constructor
  · intro s h1 h2
    have he : convert_style_calls s = s := by
      show (convertList s.toList).asString = s
      rw [convertList_id_of_no_wrapper h1 h2]
      exact asString_toList s
    rw [he, he]
  · decide

/-- C2 witness: the amended idempotence applied to a concrete wrapper-free
text. -/
theorem C2_idempotent_amended_witness :
    convert_style_calls (convert_style_calls "let x = 1;")
      = convert_style_calls "let x = 1;" :=
  C2_idempotent_amended.1 "let x = 1;" (by decide) (by decide)

/-- C3: pass-through: a text in which no compound pattern (wrapper form
combined with a rule's match pattern) occurs at any position is returned
unchanged, character for character. -/
theorem C3_pass_through :
    ∀ s : String, NoCompoundMatch s.toList → convert_style_calls s = s := by
  intro s h
  show (convertList s.toList).asString = s
  have hid : convertList s.toList = s.toList := by
    apply foldl_fixed
    intro r hr
    apply applyRule_id_of_matchers_none
    intro t ht
    exact h r hr t ((List.mem_tails t s.toList).mpr ht)
  rw [hid]
  exact asString_toList s

/-- C3 witness: pass-through on a concrete unrelated text. -/
theorem C3_pass_through_witness :
    convert_style_calls "let total = count + 1;" = "let total = count + 1;" :=
  C3_pass_through "let total = count + 1;" (by decide)

/-- C5 counterexample: it is not the case that the white and cyan rules
send bold variants to `bold` and non-bold variants to `debug`: the
non-bold white entries map to `bold`, not `debug`. -/
theorem C5_white_nonbold_refutes :
    ¬ (∀ r ∈ style_mappings,
        ((r.tail = ".white().bold()" ∨ r.tail = ".cyan().bold()") → r.name = "bold") ∧
        ((r.tail = ".white()" ∨ r.tail = ".cyan()") → r.name = "debug")) := by
  decide

/-- C5 amended: the white and cyan entries collapse onto the two generic
styles `bold` and `debug` only: all bold variants and the non-bold white
variants map to `bold`, the non-bold cyan variants map to `debug`, and no
entry has a white- or cyan-specific destination style. -/
theorem C5_amended :
    ∀ r ∈ style_mappings,
      ((r.tail = ".white().bold()" ∨ r.tail = ".cyan().bold()" ∨ r.tail = ".white()") →
        r.name = "bold") ∧
      (r.tail = ".cyan()" → r.name = "debug") ∧
      r.name ≠ "white" ∧ r.name ≠ "cyan" := by
  decide

/-- C5 witness: the amended mapping applied to the non-bold literal cyan
entry. -/
theorem C5_amended_witness :
    Rule.name ⟨true, ".cyan()", "debug"⟩ = "debug" :=
  (C5_amended ⟨true, ".cyan()", "debug"⟩ (by decide)).2.1 rfl

/-- C6: the rewriter is total: for every input text it terminates and
produces an output text; the embedding is a total function with no error
outcome. -/
theorem C6_total :
    ∀ content : String, ∃ output : String, convert_style_calls content = output :=
  fun content => ⟨convert_style_calls content, rfl⟩

/-- C10 counterexample: an unenclosed style call is not always left
unchanged.  In `println!(style(a).green()); format!(style(b).red())` the
second call is wrapped in `format!`, which is none of the four recognized
wrapper forms, and matches the variable red rule; yet the rewriter changes
the text and the call does not survive: the lazy variable-argument group of
the preceding `println!(` standalone wrapper absorbs it (the capture is
`a).green()); format!(style(b`), mangling the unwrapped call. -/
theorem C10_absorption_refutes :
    convert_style_calls "println!(style(a).green()); format!(style(b).red())"
      ≠ "println!(style(a).green()); format!(style(b).red())" ∧
    ¬ ("format!(style(b).red())".toList <:+:
        (convert_style_calls "println!(style(a).green()); format!(style(b).red())").toList) := by
  constructor
  · decide
  · decide

/-- C10 amended: a style call not enclosed in one of the recognized
wrapper forms is left unchanged only when no wrapper occurrence elsewhere
in the text can absorb it: in every text containing neither `println!(`
nor `print!(` the rewriter is the identity, so such unwrapped calls are
returned unchanged even when they match rule patterns; and a wrapped call
whose wrapper closing parenthesis does not immediately follow the call (an
extra argument intervenes) is also left unchanged. -/
theorem C10_unwrapped_unchanged :
    (∀ s : String, ¬ ("println!(".toList <:+: s.toList) →
      ¬ ("print!(".toList <:+: s.toList) → convert_style_calls s = s) ∧
    convert_style_calls "println!(\"E\", style(\"bad\").red().bold(), x)"
      = "println!(\"E\", style(\"bad\").red().bold(), x)" := by
  constructor
  · intro s h1 h2
    show (convertList s.toList).asString = s
    rw [convertList_id_of_no_wrapper h1 h2]
    exact asString_toList s
  · decide

/-- C10 witness: an unwrapped style call that matches a rule pattern is
left unchanged. -/
theorem C10_unwrapped_unchanged_witness :
    convert_style_calls "let color = style(\"bad\").red().bold();"
      = "let color = style(\"bad\").red().bold();" :=
  C10_unwrapped_unchanged.1 "let color = style(\"bad\").red().bold();"
    (by decide) (by decide)

end MigrateStyles

namespace Themes

/-- C7: the default theme name is a key of the registry, both in the plain
value reading of `available()` and in the store model where `available()`
allocates a copy of the registry; no operation of the module mutates the
registry. -/
theorem C7_default_in_registry :
    DEFAULT_THEME ∈ available.map Prod.fst ∧
    DEFAULT_THEME ∈
      (readCell (available_alloc initStore).1 (available_alloc initStore).2).map Prod.fst := by
  constructor
  · decide
  · decide

/-- C8: lookup returns the palette on an exact, case-sensitive key match
and an absent result for any unknown name: the `ciapre-dark` palette has
background `#262626`, `nonexistent` and the differently-cased
`Ciapre-Dark` are absent, every registry entry is found exactly, and
every name outside the key set yields `none`. -/
theorem C8_lookup_semantics :
    (lookup "ciapre-dark").map ThemePalette.background = some "#262626" ∧
    lookup "nonexistent" = none ∧
    lookup "Ciapre-Dark" = none ∧
    (∀ n p, (n, p) ∈ THEMES → lookup n = some p) ∧
    (∀ n, n ∉ THEMES.map Prod.fst → lookup n = none) := by
  refine ⟨by decide, by decide, by decide, ?_, ?_⟩
  · intro n p hm
    simp only [THEMES, List.mem_cons, List.not_mem_nil, or_false, Prod.mk.injEq] at hm
    rcases hm with ⟨hn, hp⟩ | ⟨hn, hp⟩ <;> subst hn <;> subst hp <;> decide
  · intro n hn
    simp only [THEMES, List.map_cons, List.map_nil, List.mem_cons, List.not_mem_nil,
      or_false, not_or] at hn
    obtain ⟨h1, h2⟩ := hn
    have b1 : ("ciapre-dark" == n) = false := by
      simp [beq_eq_false_iff_ne]
      exact fun he => h1 he.symm
    have b2 : ("ciapre-blue" == n) = false := by
      simp [beq_eq_false_iff_ne]
      exact fun he => h2 he.symm
    simp [lookup, THEMES, List.find?, b1, b2]

/-- C8 witness: the exact-match clause applied to the second registry
entry, and the unknown-name clause applied to a concrete name. -/
theorem C8_lookup_semantics_witness :
    lookup "ciapre-blue" = some ⟨"#BFB38F", "#383B73", "#BFB38F", "#BFB38F", "#FF8A8A"⟩ ∧
    lookup "solarized" = none :=
  ⟨C8_lookup_semantics.2.2.2.1 "ciapre-blue" ⟨"#BFB38F", "#383B73", "#BFB38F", "#BFB38F", "#FF8A8A"⟩
      (by decide),
   C8_lookup_semantics.2.2.2.2 "solarized" (by decide)⟩

/-- C9: copy independence of `available()`: overwriting the freshly
allocated copy with any entries leaves the registry cell unchanged, so
subsequent lookups and a subsequent `available()` call still see the
original registry. -/
theorem C9_copy_independence :
    ∀ v : List (String × ThemePalette),
      readCell (writeCell (available_alloc initStore).1 (available_alloc initStore).2 v)
          THEMES_ref = THEMES ∧
      (∀ n, lookup_at (writeCell (available_alloc initStore).1 (available_alloc initStore).2 v) n
          = lookup_at initStore n) ∧
      readCell
          (available_alloc
            (writeCell (available_alloc initStore).1 (available_alloc initStore).2 v)).1
          (available_alloc
            (writeCell (available_alloc initStore).1 (available_alloc initStore).2 v)).2
        = THEMES := by
  intro v
  exact ⟨rfl, fun _ => rfl, rfl⟩

end Themes

namespace MigrateStyles

/-- Helper: if two character sequences clash inside their common length,
the first fails as a literal against the second followed by anything. -/
theorem litClash_dropLit : ∀ (l p : List Char), litClash l p = true →
    ∀ rest, dropLit l (p ++ rest) = none
  | [], p, h, _ => by simp [litClash] at h
  | _ :: _, [], h, _ => by simp [litClash] at h
  | c :: l, d :: p, h, rest => by
    simp only [litClash] at h
    by_cases hc : c = d
    · rw [if_pos hc] at h
      subst hc
      simp only [List.cons_append, dropLit, if_pos rfl]
      exact litClash_dropLit l p h rest
    · simp only [List.cons_append, dropLit, if_neg hc]

/-- Helper: identifier characters are not quotes. -/
theorem identChar_ne_quote {c : Char} (h : identChar c = true) : c ≠ '"' :=
  fun he => by subst he; exact absurd h (by decide)

/-- Helper: identifier characters are not right parentheses. -/
theorem identChar_ne_rparen {c : Char} (h : identChar c = true) : c ≠ ')' :=
  fun he => by subst he; exact absurd h (by decide)

/-- Helper: a literal satisfying `identBlock` with respect to a tail text
fails against any identifier run followed by that tail. -/
theorem identBlock_dropLit : ∀ (L t2 : List Char), identBlock L t2 = true →
    ∀ (arg : List Char), (∀ c ∈ arg, identChar c = true) → dropLit L (arg ++ t2) = none
  | L, t2, hB, [], _ => by
    cases L with
    | nil => simp [identBlock] at hB
    | cons a L' =>
      simp only [identBlock, Bool.and_eq_true] at hB
      simpa [List.nil_append] using Option.isNone_iff_eq_none.mp hB.1
  | L, t2, hB, c :: arg', hid => by
    cases L with
    | nil => simp [identBlock] at hB
    | cons a L' =>
      simp only [identBlock, Bool.and_eq_true] at hB
      simp only [List.cons_append, dropLit]
      by_cases hac : a = c
      · rw [if_pos hac]
        have hcId : identChar c = true := hid c (List.mem_cons_self c arg')
        have haId : identChar a = true := by rw [hac]; exact hcId
        have hB' : identBlock L' t2 = true := by
          have h2 := hB.2
          rwa [if_pos haId] at h2
        exact identBlock_dropLit L' t2 hB' arg'
          (fun d hd => hid d (List.mem_cons_of_mem c hd))
      · rw [if_neg hac]

/-- Helper: the lazy group succeeds immediately when the continuation
matches at the head. -/
theorem matchLazyArg_of_dropLit {cont : Text} {c : Char} {s r : Text}
    (h : dropLit cont (c :: s) = some r) :
    matchLazyArg cont (c :: s) = some ([], r) := by
  simp [matchLazyArg, h]

/-- Helper: the lazy group steps over one non-quote character when the
continuation does not match at the head. -/
theorem matchLazyArg_step {cont : Text} {c : Char} {s : Text}
    (hd : dropLit cont (c :: s) = none) (hq : c ≠ '"') :
    matchLazyArg cont (c :: s) = (matchLazyArg cont s).map (fun p => (c :: p.1, p.2)) := by
  simp only [matchLazyArg, hd, if_neg hq]
  cases matchLazyArg cont s with
  | none => rfl
  | some p => rfl

/-- Helper: the lazy group captures exactly an identifier run when the
continuation follows it (the continuation starts with a right parenthesis,
which no identifier character equals). -/
theorem matchLazyArg_exact (k : List Char) :
    ∀ (arg : Text), (∀ c ∈ arg, identChar c = true) → ∀ rest,
      matchLazyArg (')' :: k) (arg ++ ((')' :: k) ++ rest)) = some (arg, rest)
  | [], _, rest => by
    rw [List.nil_append, List.cons_append]
    exact matchLazyArg_of_dropLit (by
      rw [← List.cons_append]
      exact dropLit_append (')' :: k) rest)
  | c :: arg', hid, rest => by
    have hcId : identChar c = true := hid c (List.mem_cons_self c arg')
    rw [List.cons_append]
    have hd : dropLit (')' :: k) (c :: (arg' ++ ((')' :: k) ++ rest))) = none := by
      simp only [dropLit, if_neg (show ¬ (')' = c) from fun h => identChar_ne_rparen hcId h.symm)]
    rw [matchLazyArg_step hd (identChar_ne_quote hcId)]
    rw [matchLazyArg_exact k arg' (fun d hd' => hid d (List.mem_cons_of_mem c hd')) rest]
    rfl

/-- Helper: the lazy group fails on an identifier run followed by a tail on
which it fails. -/
theorem matchLazyArg_blocked {k : List Char} {t2 : Text}
    (h2 : matchLazyArg (')' :: k) t2 = none) :
    ∀ (arg : Text), (∀ c ∈ arg, identChar c = true) →
      matchLazyArg (')' :: k) (arg ++ t2) = none
  | [], _ => by simpa using h2
  | c :: arg', hid => by
    have hcId : identChar c = true := hid c (List.mem_cons_self c arg')
    rw [List.cons_append]
    have hd : dropLit (')' :: k) (c :: (arg' ++ t2)) = none := by
      simp only [dropLit, if_neg (show ¬ (')' = c) from fun h => identChar_ne_rparen hcId h.symm)]
    rw [matchLazyArg_step hd (identChar_ne_quote hcId)]
    rw [matchLazyArg_blocked h2 arg' (fun d hd' => hid d (List.mem_cons_of_mem c hd'))]
    rfl

/-- Helper: a suffix of an appended list is a suffix of the second part or
the second part preceded by a nonempty suffix of the first. -/
theorem suffix_append_cases {α : Type} : ∀ (a b t : List α), t <:+ a ++ b →
    t <:+ b ∨ ∃ a', a' <:+ a ∧ a' ≠ [] ∧ t = a' ++ b
  | [], _, t, h => Or.inl (by simpa using h)
  | c :: a, b, t, h => by
    obtain ⟨u, hu⟩ := h
    cases u with
    | nil =>
      right
      refine ⟨c :: a, List.suffix_rfl, by simp, ?_⟩
      simpa using hu
    | cons d u' =>
      have h' : t <:+ a ++ b := by
        refine ⟨u', ?_⟩
        have h2 := hu
        simp only [List.cons_append] at h2
        exact (List.cons_eq_cons.mp h2).2
      rcases suffix_append_cases a b t h' with h2 | ⟨a', ha1, ha2, ha3⟩
      · exact Or.inl h2
      · exact Or.inr ⟨a', ha1.trans ⟨[c], rfl⟩, ha2, ha3⟩

/-- Helper: at every position of a variable call site other than the very
first, a leading literal satisfying the three decidable side conditions
fails. -/
theorem varSite_dropLit_none {lead : Text} {arg : Text}
    (hid : ∀ c ∈ arg, identChar c = true)
    (hclash : ∀ x ∈ varFront.tails, x = varFront ∨ x = [] ∨ litClash lead x = true)
    (hIB : identBlock lead varBack = true)
    (htail : ∀ t ∈ varBack.tails, dropLit lead t = none) :
    ∀ t, t <:+ varSite arg → t ≠ varSite arg → dropLit lead t = none := by
  intro t ht hne
  rcases suffix_append_cases varFront (arg ++ varBack) t ht with h | ⟨x, hx, hxne, rfl⟩
  · rcases suffix_append_cases arg varBack t h with h2 | ⟨a', ha', _, rfl⟩
    · exact htail t ((List.mem_tails t varBack).mpr h2)
    · exact identBlock_dropLit lead varBack hIB a'
        (fun c hc => hid c (ha'.subset hc))
  · rcases hclash x ((List.mem_tails x varFront).mpr hx) with h | h | h
    · subst h
      exact absurd rfl hne
    · exact absurd h hxne
    · exact litClash_dropLit lead x h (arg ++ varBack)

/-- Helper: a scanner whose matcher fails wherever its leading literal
fails, and fails at the head of the site, leaves a variable call site
unchanged. -/
theorem subScan_id_varSite {arg : Text} (m : Text → Option (Text × Text)) (lead : Text)
    (hm : ∀ t, dropLit lead t = none → m t = none)
    (h0 : m (varSite arg) = none)
    (hid : ∀ c ∈ arg, identChar c = true)
    (hclash : ∀ x ∈ varFront.tails, x = varFront ∨ x = [] ∨ litClash lead x = true)
    (hIB : identBlock lead varBack = true)
    (htail : ∀ t ∈ varBack.tails, dropLit lead t = none) :
    ∀ fuel, subScan m fuel (varSite arg) = varSite arg := by
  apply subScan_id
  intro t ht
  by_cases he : t = varSite arg
  · rw [he]
    exact h0
  · exact hm t (varSite_dropLit_none hid hclash hIB htail t ht he)

/-- Helper: reduction of the wrapped `println!` match at the head of a
variable call site to the style-argument match. -/
theorem matchWrapped_println_varSite_none (r : Rule) (arg : Text)
    (h : matchStyleArg r ("style(".toList ++ (arg ++ varBack)) = none) :
    matchWrapped "println" r (varSite arg) = none := by
  have e : matchWrapped "println" r (varSite arg)
      = (match matchStyleArg r ("style(".toList ++ (arg ++ varBack)) with
         | none => none
         | some (a, s4) => some (['E'], a, s4)) := rfl
  rw [e, h]

/-- Helper: the wrapped `println!` match at the head of a variable call
site succeeds with the format group `E` when the style-argument match
succeeds. -/
theorem matchWrapped_println_varSite_some {arg : Text}
    (h : matchStyleArg ⟨false, ".red()", "error"⟩ ("style(".toList ++ (arg ++ varBack))
        = some (arg, [])) :
    matchWrapped "println" ⟨false, ".red()", "error"⟩ (varSite arg)
      = some (['E'], arg, []) := by
  have e : matchWrapped "println" ⟨false, ".red()", "error"⟩ (varSite arg)
      = (match matchStyleArg ⟨false, ".red()", "error"⟩ ("style(".toList ++ (arg ++ varBack)) with
         | none => none
         | some (a, s4) => some (['E'], a, s4)) := rfl
  rw [e, h]

/-- Helper: the `eprintln!` wrapper never matches at the head of a
variable call site (its leading literal clashes immediately). -/
theorem matchWrapped_eprintln_varSite (r : Rule) (arg : Text) :
    matchWrapped "eprintln" r (varSite arg) = none := rfl

/-- Helper: the `print!` wrapper never matches at the head of a variable
call site (its `!` clashes with the `l` of `println`). -/
theorem matchWrapped_print_varSite (r : Rule) (arg : Text) :
    matchWrapped "print" r (varSite arg) = none := rfl

/-- Helper: the standalone wrapper never matches at the head of a variable
call site (a quote follows `println!(`, not `style(`). -/
theorem matchStandalone_varSite (r : Rule) (arg : Text) :
    matchStandalone r (varSite arg) = none := rfl

/-- Helper: reduction of the style-argument match after `style(` at a
variable call site. -/
theorem matchStyleArg_varSeg (r : Rule) (arg : Text) :
    matchStyleArg r ("style(".toList ++ (arg ++ varBack))
      = (if r.isLit then
           (match arg ++ varBack with
            | '"' :: s2 => matchLitArg (styleCont r) s2
            | _ => none)
         else matchLazyArg (styleCont r) (arg ++ varBack)) := rfl

/-- Helper: literal-argument rules never match at a variable call site:
no quote follows `style(`. -/
theorem matchStyleArg_lit_varSeg {r : Rule} (hL : r.isLit = true) (arg : Text)
    (hid : ∀ c ∈ arg, identChar c = true) :
    matchStyleArg r ("style(".toList ++ (arg ++ varBack)) = none := by
  rw [matchStyleArg_varSeg, if_pos hL]
  cases arg with
  | nil => rfl
  | cons c arg' =>
    have hc : c ≠ '"' := identChar_ne_quote (hid c (List.mem_cons_self c arg'))
    rw [List.cons_append]
    split
    · next s2 heq =>
      exact absurd (List.cons_eq_cons.mp heq.symm).1.symm hc
    · rfl

/-- Helper: the variable red rule matches a variable call site exactly,
capturing the identifier argument and consuming the whole site. -/
theorem matchStyleArg_vRed_varSeg (arg : Text) (hid : ∀ c ∈ arg, identChar c = true) :
    matchStyleArg ⟨false, ".red()", "error"⟩ ("style(".toList ++ (arg ++ varBack))
      = some (arg, []) := by
  rw [matchStyleArg_varSeg]
  show matchLazyArg (styleCont ⟨false, ".red()", "error"⟩) (arg ++ varBack) = some (arg, [])
  rw [show styleCont ⟨false, ".red()", "error"⟩ = ')' :: (".red()".toList ++ [')']) from rfl]
  rw [show varBack = (')' :: (".red()".toList ++ [')'])) ++ [] from rfl]
  exact matchLazyArg_exact (".red()".toList ++ [')']) arg hid []

/-- Helper: variable rules whose continuation fails on the site's closing
text never match at a variable call site. -/
theorem matchStyleArg_var_other_varSeg {r : Rule} (hL : r.isLit = false)
    (hbase : matchLazyArg (styleCont r) varBack = none) (arg : Text)
    (hid : ∀ c ∈ arg, identChar c = true) :
    matchStyleArg r ("style(".toList ++ (arg ++ varBack)) = none := by
  rw [matchStyleArg_varSeg, if_neg (by rw [hL]; exact Bool.false_ne_true)]
  rw [show styleCont r = ')' :: (r.tail.toList ++ [')']) from rfl] at hbase ⊢
  exact matchLazyArg_blocked hbase arg hid

/-- Helper: every rule pass of the first twenty-three entries leaves a
variable call site unchanged. -/
theorem applyRule_varSite_id {arg : Text} (hid : ∀ c ∈ arg, identChar c = true)
    {r : Rule}
    (hr : r.isLit = true ∨ (r.isLit = false ∧ matchLazyArg (styleCont r) varBack = none)) :
    applyRule (varSite arg) r = varSite arg := by
  have hstyle : matchStyleArg r ("style(".toList ++ (arg ++ varBack)) = none := by
    rcases hr with h | ⟨h1, h2⟩
    · exact matchStyleArg_lit_varSeg h arg hid
    · exact matchStyleArg_var_other_varSeg h1 h2 arg hid
  simp only [applyRule, subWrapped, subStandalone]
  rw [subScan_id_varSite (wrappedMatcher "println" r) (("println" ++ "!(\"").toList)
    (fun t h => wrappedMatcher_none_of (matchWrapped_none_of h))
    (wrappedMatcher_none_of (matchWrapped_println_varSite_none r arg hstyle))
    hid (by decide) (by decide) (by decide)]
  rw [subScan_id_varSite (wrappedMatcher "eprintln" r) (("eprintln" ++ "!(\"").toList)
    (fun t h => wrappedMatcher_none_of (matchWrapped_none_of h))
    (wrappedMatcher_none_of (matchWrapped_eprintln_varSite r arg))
    hid (by decide) (by decide) (by decide)]
  rw [subScan_id_varSite (wrappedMatcher "print" r) (("print" ++ "!(\"").toList)
    (fun t h => wrappedMatcher_none_of (matchWrapped_none_of h))
    (wrappedMatcher_none_of (matchWrapped_print_varSite r arg))
    hid (by decide) (by decide) (by decide)]
  rw [subScan_id_varSite (standaloneMatcher r) ("println!(".toList)
    (fun t h => standaloneMatcher_none_of (matchStandalone_none_of h))
    (standaloneMatcher_none_of (matchStandalone_varSite r arg))
    hid (by decide) (by decide) (by decide)]

/-- Helper: the `println!` pass of the variable red rule rewrites the
whole variable call site into the (argument-dropping) replacement. -/
theorem subWrapped_println_vRed {arg : Text} (hid : ∀ c ∈ arg, identChar c = true) :
    subWrapped "println" ⟨false, ".red()", "error"⟩ (varSite arg)
      = wrappedRepl "println" ⟨false, ".red()", "error"⟩ ['E'] := by
  have hm : wrappedMatcher "println" ⟨false, ".red()", "error"⟩ (varSite arg)
      = some (wrappedRepl "println" ⟨false, ".red()", "error"⟩ ['E'], []) := by
    have h2 := matchWrapped_println_varSite_some (matchStyleArg_vRed_varSeg arg hid)
    simp [wrappedMatcher, h2]
  have hsite : varSite arg = 'p' :: ("rintln!(\"E\", style(".toList ++ (arg ++ varBack)) := rfl
  unfold subWrapped
  rw [hsite] at hm ⊢
  rw [List.length_cons]
  simp only [subScan, hm]
  rw [List.append_nil]

/-- Helper: the whole rewriter sends a variable call site with an
identifier argument to the rewritten (argument-dropping) output. -/
theorem convertList_varSite {arg : Text} (hid : ∀ c ∈ arg, identChar c = true) :
    convertList (varSite arg)
      = "println!(\"E{}\", Styles::error().render(), E, Styles::error().render_reset())".toList := by
  rw [convertList]
  rw [show style_mappings = style_mappings.take 23 ++ style_mappings.drop 23 from
    (List.take_append_drop 23 style_mappings).symm]
  rw [List.foldl_append]
  have hfront : List.foldl applyRule (varSite arg) (style_mappings.take 23) = varSite arg := by
    apply foldl_fixed
    intro r hr
    apply applyRule_varSite_id hid
    have hcond : ∀ r' ∈ style_mappings.take 23,
        r'.isLit = true ∨ (r'.isLit = false ∧ matchLazyArg (styleCont r') varBack = none) := by
      decide
    exact hcond r hr
  rw [hfront]
  rw [show style_mappings.drop 23
      = (⟨false, ".red()", "error"⟩ : Rule) :: style_mappings.drop 24 from rfl]
  rw [List.foldl_cons]
  have happ : applyRule (varSite arg) ⟨false, ".red()", "error"⟩
      = subStandalone ⟨false, ".red()", "error"⟩
          (subWrapped "print" ⟨false, ".red()", "error"⟩
            (subWrapped "eprintln" ⟨false, ".red()", "error"⟩
              (wrappedRepl "println" ⟨false, ".red()", "error"⟩ ['E']))) := by
    simp only [applyRule]
    rw [subWrapped_println_vRed hid]
  rw [happ]
  decide

/-- C4 counterexample: a wrapped call site whose `style(...)` argument
begins with a non-quote character but contains an interior quote is left
unchanged: no variable-argument rule recognizes it, refuting the claim at
this input. -/
theorem C4_interior_quote_refutes :
    convert_style_calls "println!(\"E\", style(f(\"x\")).red())"
      = "println!(\"E\", style(f(\"x\")).red())" ∧
    "f(\"x\")".toList.head? = some 'f' := by
  constructor
  · decide
  · decide

/-- C4 amended: variable and literal cases are handled by separate rule
entries (sixteen literal, fourteen variable, with paired red entries), and
a variable-argument rule recognizes and rewrites a wrapped call site
whose argument is an identifier containing no quotation character at all
and whose format literal fits the wrapper's class (representative format
`E`); the rewrite drops the captured argument, substituting the format
group instead. -/
theorem C4_variable_rules_amended :
    ((style_mappings.filter (fun r => r.isLit)).length = 16 ∧
     (style_mappings.filter (fun r => !r.isLit)).length = 14 ∧
     (⟨true, ".red()", "error"⟩ : Rule) ∈ style_mappings ∧
     (⟨false, ".red()", "error"⟩ : Rule) ∈ style_mappings) ∧
    ∀ arg : String, (∀ c ∈ arg.toList, identChar c = true) →
      convert_style_calls ("println!(\"E\", style(" ++ arg ++ ").red())")
        = "println!(\"E{}\", Styles::error().render(), E, Styles::error().render_reset())" := by
  constructor
  · exact ⟨by decide, by decide, by decide, by decide⟩
  · intro arg hid
    show (convertList ("println!(\"E\", style(" ++ arg ++ ").red())").toList).asString = _
    have htl : ("println!(\"E\", style(" ++ arg ++ ").red())").toList = varSite arg.toList := by
      simp [varSite, varFront, varBack, List.append_assoc]
    rw [htl, convertList_varSite hid]
    rfl

/-- C4 witness: the amended statement applied to the identifier argument
`count`. -/
theorem C4_variable_rules_amended_witness :
    convert_style_calls "println!(\"E\", style(count).red())"
      = "println!(\"E{}\", Styles::error().render(), E, Styles::error().render_reset())" :=
  C4_variable_rules_amended.2 "count" (by decide)

end MigrateStyles
